import Mathlib

/-!
Shallow embedding of the volta-chess-api core (retrieval_engine.py,
embeddings.py, benchmark.py, api/index.py) and proofs about it.

Conventions used throughout:
* Python floats are modelled as rationals (`ℚ`); exact arithmetic.
* Python exceptions are modelled with `Except PyError`.
* The chess rules engine (python-chess) is an external collaborator: a
  board is its observable data (occupancy per square, turn, castling
  rights, legal-move count, attack predicate); moves are opaque ids.
* python-chess conventions: `WHITE = True`, `BLACK = False`;
  square = 8 * rank + file; `chess.square(f, r) = 8 * r + f`.
-/

/-- Python exceptions that the modelled code can raise. -/
inductive PyError where
  /-- `IndexError` from `random.choice` on an empty sequence. -/
  | indexError
  /-- `ZeroDivisionError` from dividing by zero. -/
  | zeroDivisionError
  /-- any other exception, tagged with an opaque code -/
  | other (code : Nat)
deriving DecidableEq

instance {ε α : Type} [DecidableEq ε] [DecidableEq α] : DecidableEq (Except ε α)
  | Except.ok a, Except.ok b =>
    if h : a = b then isTrue (by rw [h])
    else isFalse (fun hc => h (by injection hc))
  | Except.ok _, Except.error _ => isFalse (fun hc => Except.noConfusion hc)
  | Except.error _, Except.ok _ => isFalse (fun hc => Except.noConfusion hc)
  | Except.error d, Except.error e =>
    if h : d = e then isTrue (by rw [h])
    else isFalse (fun hc => h (by injection hc))

/-- Moves are opaque identifiers (the source passes UCI strings around). -/
abbrev Move := Nat

/-- Per-instance state of `RetrievalEngine` (`retrieval_engine.py`):
the hit and miss counters set up in `__init__`. -/
structure RetrievalEngine where
  hits : Nat
  misses : Nat
deriving DecidableEq

/-- The fallback tail of `RetrievalEngine.get_move`:
`self.misses += 1; return random.choice(list(board.legal_moves))`.
`random.choice` raises `IndexError` on an empty sequence (after the
miss counter was already bumped; the raised exception discards the
updated state from the caller's point of view).  `randIdx` resolves the
`random.choice` pick (taken mod the list length). -/
def randomFallback (eng : RetrievalEngine) (legalMoves : List Move)
    (randIdx : Nat) : Except PyError (Option Move × RetrievalEngine) :=
  if h : legalMoves = [] then
    Except.error PyError.indexError
  else
    Except.ok
      (some (legalMoves.get
        ⟨randIdx % legalMoves.length, Nat.mod_lt _ (List.length_pos.mpr h)⟩),
       { hits := eng.hits, misses := eng.misses + 1 })

/-- `RetrievalEngine.get_move` (retrieval_engine.py lines 41-51).

`legalMoves` is `list(board.legal_moves)` from the external rules engine;
`lookupResult` is what `self.lookup(board)` produced (already folded:
`none` when the index returned nothing or the top score was below the
threshold, `some m` for an accepted match whose payload move parsed).

Returns the move paired with the updated engine state.  The result type
is `Option Move` because the Python caller tests the result against
`None` (the no-move signal); this code path never produces `none`. -/
def get_move (eng : RetrievalEngine) (legalMoves : List Move)
    (lookupResult : Option Move) (randIdx : Nat) :
    Except PyError (Option Move × RetrievalEngine) :=
  match lookupResult with
  | some m =>
      if m ∈ legalMoves then
        Except.ok (some m, { hits := eng.hits + 1, misses := eng.misses })
      else randomFallback eng legalMoves randIdx
  | none => randomFallback eng legalMoves randIdx

/-- One game from the point of view of the retrieval side
(`play_game` in benchmark.py): the engine answers one `get_move` call
per black move; each list entry carries that call's external inputs
(legal moves, folded lookup answer, random pick).  The fold stops with
`none` if a call fails or yields no move. -/
def runGameCalls : RetrievalEngine → List (List Move × Option Move × Nat) →
    Option RetrievalEngine
  | eng, [] => some eng
  | eng, c :: rest =>
    match get_move eng c.1 c.2.1 c.2.2 with
    | Except.ok (some _, eng2) => runGameCalls eng2 rest
    | _ => none

/-- Result collection in `run_benchmark` (benchmark.py lines 121-133) and
`run_benchmark_endpoint` (api/index.py lines 77-92):
`games = [None] * num_games`, then for each completed future (in
completion order) `games[idx] = game` where `idx` is the submission
index the future was tagged with.  `resultOf i` is the result of the
game submitted at index `i`; `order` is the completion order. -/
def collectGames {α : Type} (n : Nat) (resultOf : Nat → α)
    (order : List Nat) : List (Option α) :=
  order.foldl (fun arr idx => arr.set idx (some (resultOf idx)))
    (List.replicate n none)

/-- Game outcome codes (`board.result()` strings in the source;
the source keys are given in the comments). -/
inductive Outcome where
  /-- the source code string is 1-0 (Sunfish, playing White, won) -/
  | sunfishWin
  /-- the source code string is 0-1 (the retrieval engine won) -/
  | retrievalWin
  /-- the source code string is 1/2-1/2 -/
  | draw
  /-- the source code string is an asterisk (game not over) -/
  | unfinished
deriving DecidableEq

/-- One game's result dict as returned by `play_game` (benchmark.py
lines 71-85).  The `reason` and `pgn` fields are opaque to the
aggregation step and are not modelled. -/
structure GameRes where
  result : Outcome
  moves : Nat
  avg_sunfish_ms : ℚ
  avg_retrieval_ms : ℚ
  hits : Nat
  misses : Nat
deriving DecidableEq

/-- The `summary` object of a benchmark report (benchmark.py lines
155-165, api/index.py lines 104-114). -/
structure Summary where
  sunfish_wins : Nat
  retrieval_wins : Nat
  draws : Nat
  avg_moves : ℤ
  avg_sunfish_ms : ℤ
  avg_retrieval_ms : ℤ
  total_hits : Nat
  total_misses : Nat
  hit_rate_pct : ℚ
deriving DecidableEq

/-- Python `round` to an integer: nearest integer, ties to even. -/
def pyRoundInt (q : ℚ) : ℤ :=
  if q - q.floor < 1 / 2 then q.floor
  else if 1 / 2 < q - q.floor then q.floor + 1
  else if q.floor % 2 = 0 then q.floor else q.floor + 1

/-- Python `round(q, 1)`: one decimal place, ties to even. -/
def pyRound1 (q : ℚ) : ℚ := (pyRoundInt (q * 10) : ℚ) / 10

/-- The summary aggregation of `run_benchmark_endpoint` (api/index.py
lines 97-114); `run_benchmark` (benchmark.py lines 141-165) computes the
same fields from its running totals.  `numGames` is `req.num_games`
(resp. `num_games`), `gs` the materialized per-game results.  Every
`avg_*` field divides by `numGames` with no guard, so `numGames = 0`
raises `ZeroDivisionError`; only the hit-rate ratio is guarded by
`if total else 0`. -/
def aggregate (numGames : Nat) (gs : List GameRes) : Except PyError Summary :=
  if numGames = 0 then Except.error PyError.zeroDivisionError
  else
    Except.ok
      { sunfish_wins := (gs.filter (fun g => g.result = Outcome.sunfishWin)).length
        retrieval_wins := (gs.filter (fun g => g.result = Outcome.retrievalWin)).length
        draws := (gs.filter (fun g => g.result = Outcome.draw)).length
        avg_moves := pyRoundInt (((gs.map GameRes.moves).sum : ℚ) / numGames)
        avg_sunfish_ms := pyRoundInt ((gs.map GameRes.avg_sunfish_ms).sum / numGames)
        avg_retrieval_ms := pyRoundInt ((gs.map GameRes.avg_retrieval_ms).sum / numGames)
        total_hits := (gs.map GameRes.hits).sum
        total_misses := (gs.map GameRes.misses).sum
        hit_rate_pct := pyRound1
          (if (gs.map GameRes.hits).sum + (gs.map GameRes.misses).sum = 0 then 0
           else (((gs.map GameRes.hits).sum : ℚ) /
             ((gs.map GameRes.hits).sum + (gs.map GameRes.misses).sum)) * 100) }

/-- The spec's hit-rate formula (section 8 of the spec): the hit ratio
as a percentage rounded to one decimal place, and 0 when
`hits + misses = 0`.  Stated from the spec's words, to be compared with
the `aggregate` field computed from the source. -/
def specHitRatePct (hits misses : Nat) : ℚ :=
  if hits + misses = 0 then 0
  else pyRound1 (((hits : ℚ) / ((hits : ℚ) + (misses : ℚ))) * 100)

/-- Events appended to a run's in-memory event log
(`_runs[run_id]` in api/index.py). -/
inductive RunEvent (α : Type) where
  /-- a game completed: its submission index and its result dict -/
  | completed (gameIdx : Nat) (g : α)
  /-- terminal success marker (payload: report filename, opaque) -/
  | doneOk
  /-- terminal error marker carrying `str(e)` (opaque code) -/
  | doneError (e : PyError)
deriving DecidableEq

/-- The body of the `run()` thread in `run_benchmark_endpoint`
(api/index.py lines 72-128): consume futures in completion order;
`future.result()` re-raises a game task's exception, which jumps to the
outer `except` clause, appending a terminal error event — the remaining
futures are never consumed.  If every game returns, a report is
aggregated and a terminal success event is appended.  `outcome i` is
what the game task with submission index `i` does (returns or raises);
`evs` is the event log accumulated so far. -/
def processFutures {α : Type} (outcome : Nat → Except PyError α) :
    List Nat → List (RunEvent α) → List (RunEvent α)
  | [], evs => evs ++ [RunEvent.doneOk]
  | i :: rest, evs =>
    match outcome i with
    | Except.error e => evs ++ [RunEvent.doneError e]
    | Except.ok g => processFutures outcome rest (evs ++ [RunEvent.completed i g])

/-- The full event log of one run: completion order `order`, empty
initial log. -/
def runEvents {α : Type} (outcome : Nat → Except PyError α)
    (order : List Nat) : List (RunEvent α) :=
  processFutures outcome order []

/-- A two-game run in which the task of game 0 raises and game 1
returns its index. -/
def failingOutcome : Nat → Except PyError Nat :=
  fun i => if i = 0 then Except.error (PyError.other 99) else Except.ok i

/-- python-chess piece types (`chess.PAWN` .. `chess.KING`). -/
inductive PieceType where
  | pawn
  | knight
  | bishop
  | rook
  | queen
  | king
deriving DecidableEq

/-- A piece: type plus color (`True` = white, as in python-chess). -/
structure Piece where
  pieceType : PieceType
  color : Bool
deriving DecidableEq

/-- Observable state of a `chess.Board` as consumed by `encode_board`
(embeddings.py).  Occupancy is the board's own data; castling rights,
the legal-move count and the attack predicate are answers of the
external rules engine, recorded here as fields. -/
structure Board where
  pieceAt : Fin 64 → Option Piece
  turn : Bool
  castleWK : Bool
  castleWQ : Bool
  castleBK : Bool
  castleBQ : Bool
  /-- result of the rules-engine query len(list(board.legal_moves)) -/
  legalMoveCount : Nat
  /-- result of the rules-engine query bool(board.attackers(color, sq)) -/
  attackedBy : Bool → Nat → Bool

/-- `board.piece_at(sq)` for a square in [0, 64). -/
def pieceAtN (b : Board) (s : Nat) : Option Piece :=
  if h : s < 64 then b.pieceAt ⟨s, h⟩ else none

/-- `board.piece_at(sq)` for an arbitrary Python int square.
python-chess evaluates `BB_SQUARES[square]` where `BB_SQUARES` is a
64-element Python list, so squares in [-64, 0) wrap around to
`square + 64` (Python negative list indexing); squares outside
[-64, 64) would raise `IndexError` (never reached by the encoder). -/
def pieceAtI (b : Board) (s : ℤ) : Option Piece :=
  if -64 ≤ s ∧ s < 64 then pieceAtN b (s % 64).toNat else none

/-- `board.pieces(pt, color)`: the squares holding that piece, ascending
(python-chess SquareSet iteration order). -/
def piecesOf (b : Board) (pt : PieceType) (c : Bool) : List Nat :=
  (List.range 64).filter (fun s => pieceAtN b s = some (Piece.mk pt c))

/-- `board.king(color)`: python-chess takes the most significant bit of
the king mask — the highest such square — or `None` if there is none. -/
def king (b : Board) (c : Bool) : Option Nat :=
  (piecesOf b PieceType.king c).getLast?

/-- `len(board.piece_map())`: the number of occupied squares. -/
def totalPieces (b : Board) : Nat :=
  ((List.range 64).filter (fun s => (pieceAtN b s).isSome)).length

/-- Python `range(a, b)` over ints. -/
def intRange (a b : ℤ) : List ℤ :=
  (List.range (b - a).toNat).map (fun i => a + i)

/-- The test `p and p.piece_type == chess.PAWN and p.color == c`. -/
def isPawn (po : Option Piece) (c : Bool) : Bool :=
  match po with
  | some p => p.pieceType == PieceType.pawn && p.color == c
  | none => false

/-- The blocking scan of the passed-pawn loop (embeddings.py lines
97-109): for a pawn of color `c` on square `sq`, scan files
file-1, file, file+1 (bounds-checked) and the ranks
`range(rank + 1, 8)` for white or `range(rank - 7, rank)` for black,
looking for an opposing pawn.  For black the range start `rank - 7` is
negative whenever rank < 7, so the scan also hits wrapped-around
squares (see `pieceAtI`): ranks `-k` land on actual rank `8 - k`. -/
def pawnBlocked (b : Board) (c : Bool) (sq : Nat) : Bool :=
  let file : ℤ := (sq : ℤ) % 8
  let rank : ℤ := (sq : ℤ) / 8
  [file - 1, file, file + 1].any (fun adj =>
    decide (0 ≤ adj ∧ adj ≤ 7) &&
    (intRange (if c then rank + 1 else rank - 7)
        (if c then 8 else rank)).any (fun r =>
      isPawn (pieceAtI b (8 * r + adj)) (!c)))

/-- The per-side passed-pawn count (embeddings.py lines 93-113). -/
def passedCount (b : Board) (c : Bool) : Nat :=
  ((piecesOf b PieceType.pawn c).filter (fun sq => !pawnBlocked b c sq)).length

/-- The king-shield count (embeddings.py lines 120-134): friendly pawns
on the fixed shield ranks (`[1, 2]` for white, `[5, 6]` for black,
0-indexed — the code comment says ranks 2-3) within one file of the
king's file, bounds-checked.  `k` is the king square. -/
def shieldCount (b : Board) (c : Bool) (k : Nat) : Nat :=
  [(k : ℤ) % 8 - 1, (k : ℤ) % 8, (k : ℤ) % 8 + 1].foldl
    (fun acc f =>
      if 0 ≤ f ∧ f ≤ 7 then
        (if c then ([1, 2] : List ℤ) else [5, 6]).foldl
          (fun acc2 r =>
            if isPawn (pieceAtI b (8 * r + f)) c then acc2 + 1 else acc2)
          acc
      else acc)
    0

/-- One numpy assignment `vec[i] = x`. -/
def upd (v : Nat → ℚ) (i : Nat) (x : ℚ) : Nat → ℚ :=
  fun j => if j = i then x else v j

/-- A sequence of numpy assignments, applied first to last. -/
def applyWrites (v : Nat → ℚ) (ws : List (Nat × ℚ)) : Nat → ℚ :=
  ws.foldl (fun a p => upd a p.1 p.2) v

/-- Python `float(x)` of a boolean. -/
def boolVal (x : Bool) : ℚ := if x then 1 else 0

/-- The `piece_offset` dictionary (embeddings.py lines 22-29). -/
def pieceOffset (p : Piece) : Nat :=
  match p.color, p.pieceType with
  | true, PieceType.pawn => 0
  | true, PieceType.knight => 64
  | true, PieceType.bishop => 128
  | true, PieceType.rook => 192
  | true, PieceType.queen => 256
  | true, PieceType.king => 320
  | false, PieceType.pawn => 384
  | false, PieceType.knight => 448
  | false, PieceType.bishop => 512
  | false, PieceType.rook => 576
  | false, PieceType.queen => 640
  | false, PieceType.king => 704

/-- Raw-bitboard assignments (embeddings.py lines 31-34). -/
def bitboardWrites (b : Board) : List (Nat × ℚ) :=
  (List.range 64).filterMap (fun sq =>
    match pieceAtN b sq with
    | some p => some (pieceOffset p + sq, 1)
    | none => none)

/-- Material balance for one piece type (lines 36-39). -/
def materialBal (b : Board) (pt : PieceType) : ℚ :=
  let w := (piecesOf b pt true).length
  let bl := (piecesOf b pt false).length
  ((w : ℚ) - (bl : ℚ)) / ((max (w + bl) 1 : Nat) : ℚ)

/-- Material-balance assignments, the
`for i, pt in enumerate(chess.PIECE_TYPES)` loop unrolled. -/
def materialWrites (b : Board) : List (Nat × ℚ) :=
  [(768, materialBal b PieceType.pawn),
   (769, materialBal b PieceType.knight),
   (770, materialBal b PieceType.bishop),
   (771, materialBal b PieceType.rook),
   (772, materialBal b PieceType.queen),
   (773, materialBal b PieceType.king)]

/-- Pawn-file assignments (lines 42-46), the two-color loop unrolled
(white first, as in `enumerate([chess.WHITE, chess.BLACK])`). -/
def pawnFileWrites (b : Board) : List (Nat × ℚ) :=
  (piecesOf b PieceType.pawn true).map (fun sq => (768 + 6 + sq % 8, 1)) ++
  (piecesOf b PieceType.pawn false).map (fun sq => (768 + 6 + 8 + sq % 8, 1))

/-- King-position assignments (lines 49-53), colors unrolled; skipped
entirely for a color whose king is absent. -/
def kingPosWrites (b : Board) : List (Nat × ℚ) :=
  (match king b true with
   | none => []
   | some k => [(768 + 22, ((k % 8 : Nat) : ℚ) / 7),
                (768 + 23, ((k / 8 : Nat) : ℚ) / 7)]) ++
  (match king b false with
   | none => []
   | some k => [(768 + 24, ((k % 8 : Nat) : ℚ) / 7),
                (768 + 25, ((k / 8 : Nat) : ℚ) / 7)])

/-- Center-control assignments (lines 56-61): the center squares are
E4 = 28, D4 = 27, E5 = 36, D5 = 35, loop unrolled. -/
def centerWrites (b : Board) : List (Nat × ℚ) :=
  [(768 + 26, boolVal (b.attackedBy true 28)),
   (768 + 27, boolVal (b.attackedBy false 28)),
   (768 + 28, boolVal (b.attackedBy true 27)),
   (768 + 29, boolVal (b.attackedBy false 27)),
   (768 + 30, boolVal (b.attackedBy true 36)),
   (768 + 31, boolVal (b.attackedBy false 36)),
   (768 + 32, boolVal (b.attackedBy true 35)),
   (768 + 33, boolVal (b.attackedBy false 35))]

/-- Castling rights, side to move, mobility and game-phase assignments
(lines 64-76). -/
def scalarWrites (b : Board) : List (Nat × ℚ) :=
  [(768 + 34, boolVal b.castleWK),
   (768 + 35, boolVal b.castleWQ),
   (768 + 36, boolVal b.castleBK),
   (768 + 37, boolVal b.castleBQ),
   (768 + 38, boolVal b.turn),
   (768 + 39, (b.legalMoveCount : ℚ) / 60),
   (768 + 40, (totalPieces b : ℚ) / 32)]

/-- Does file `f` hold a pawn of either color (lines 79-86)? -/
def fileHasPawn (b : Board) (f : Nat) : Bool :=
  (List.range 8).any (fun r =>
    match pieceAtN b (8 * r + f) with
    | some p => p.pieceType == PieceType.pawn
    | none => false)

/-- Open-file assignments (lines 79-86). -/
def openFileWrites (b : Board) : List (Nat × ℚ) :=
  (List.range 8).map (fun f => (768 + 41 + f, boolVal (!fileHasPawn b f)))

/-- Passed-pawn assignments (lines 88-113), colors unrolled. -/
def passedWrites (b : Board) : List (Nat × ℚ) :=
  [(768 + 49, (passedCount b true : ℚ) / 8),
   (768 + 50, (passedCount b false : ℚ) / 8)]

/-- Bishop-pair assignments (lines 115-117). -/
def bishopPairWrites (b : Board) : List (Nat × ℚ) :=
  [(768 + 51, boolVal (decide (2 ≤ (piecesOf b PieceType.bishop true).length))),
   (768 + 52, boolVal (decide (2 ≤ (piecesOf b PieceType.bishop false).length)))]

/-- King-shield assignments (lines 119-134), colors unrolled; a color
without a king is skipped (`continue`). -/
def shieldWrites (b : Board) : List (Nat × ℚ) :=
  (match king b true with
   | none => []
   | some k => [(768 + 53, (shieldCount b true k : ℚ) / 6)]) ++
  (match king b false with
   | none => []
   | some k => [(768 + 54, (shieldCount b false k : ℚ) / 6)])

/-- All assignments of `encode_board`, in program order.  Indices
823-831 (dims 55-63 of the feature block) are reserved and never
written. -/
def allWrites (b : Board) : List (Nat × ℚ) :=
  bitboardWrites b ++ materialWrites b ++ pawnFileWrites b ++
  kingPosWrites b ++ centerWrites b ++ scalarWrites b ++
  openFileWrites b ++ passedWrites b ++ bishopPairWrites b ++
  shieldWrites b

/-- The vector as a function of the index:
`np.zeros(VECTOR_DIM)` followed by the assignments. -/
def encVec (b : Board) : Nat → ℚ := applyWrites (fun _ => 0) (allWrites b)

def VECTOR_DIM : Nat := 832

/-- `encode_board` (embeddings.py lines 17-139), ending in
`vec.tolist()`. -/
def encode_board (b : Board) : List ℚ :=
  (List.range VECTOR_DIM).map (encVec b)

/-- Claim C3's passed-pawn criterion, stated from the spec's words: a
pawn is passed exactly when no opposing pawn occupies the same or an
adjacent file on a rank strictly ahead of the pawn in its color's
forward direction (higher ranks for white, lower ranks for black). -/
def specPassedCount (b : Board) (c : Bool) : Nat :=
  ((piecesOf b PieceType.pawn c).filter (fun sq =>
    decide (∀ t ∈ List.range 64,
      isPawn (pieceAtN b t) (!c) = true →
      ((t % 8 : ℤ) - ((sq : ℤ) % 8)).natAbs ≤ 1 →
      ¬ (if c then sq / 8 < t / 8 else t / 8 < sq / 8)))).length

/-- Claim C4's king-shield criterion, stated from the spec's words:
friendly pawns on the two ranks immediately in front of the king
relative to the king's own rank (king rank + 1 and + 2 for white,
- 1 and - 2 for black), within one file of the king's file. -/
def specShieldRelative (b : Board) (c : Bool) : Nat :=
  match king b c with
  | none => 0
  | some k =>
    ((List.range 64).filter (fun s =>
      isPawn (pieceAtN b s) c &&
      decide ((((s : ℤ) % 8) - ((k : ℤ) % 8)).natAbs ≤ 1) &&
      decide (((s : ℤ) / 8 = (k : ℤ) / 8 + (if c then 1 else -1)) ∨
              ((s : ℤ) / 8 = (k : ℤ) / 8 + (if c then 2 else -2))))).length

/-- The amended C4 criterion: friendly pawns on the fixed shield ranks
(0-indexed 1 and 2 for white, 5 and 6 for black), within one file of
the king's file, counted over the whole board. -/
def specShieldFixed (b : Board) (c : Bool) (k : Nat) : Nat :=
  ((List.range 64).filter (fun s =>
    isPawn (pieceAtN b s) c &&
    decide (s / 8 ∈ (if c then [1, 2] else [5, 6] : List Nat)) &&
    decide ((((s : ℤ) % 8) - ((k : ℤ) % 8)).natAbs ≤ 1))).length

/-- A board holding exactly the given (square, piece) placements, white
to move, no castling rights, no external attack or mobility data. -/
def boardOfPieces (l : List (Nat × Piece)) : Board :=
  { pieceAt := fun s => (l.find? (fun q => q.1 == s.val)).map Prod.snd
    turn := true
    castleWK := false
    castleWQ := false
    castleBK := false
    castleBQ := false
    legalMoveCount := 0
    attackedBy := fun _ _ => false }

/-- Black pawn on a2 (square 8), white pawn on a7 (square 48):
FEN 8/P7/8/8/8/8/p7/8. -/
def bdPassed : Board :=
  boardOfPieces [(8, Piece.mk PieceType.pawn false),
                 (48, Piece.mk PieceType.pawn true)]

/-- White king on e4 (square 28), white pawn on e5 (square 36). -/
def bdShield : Board :=
  boardOfPieces [(28, Piece.mk PieceType.king true),
                 (36, Piece.mk PieceType.pawn true)]

/-- White king on e1 (square 4), white pawn on e2 (square 12). -/
def bdShieldE1 : Board :=
  boardOfPieces [(4, Piece.mk PieceType.king true),
                 (12, Piece.mk PieceType.pawn true)]

/-- The empty board: neither color has a king. -/
def bdEmpty : Board := boardOfPieces []

/-! ## Theorems -/

theorem randomFallback_ne_nil (eng : RetrievalEngine) (legalMoves : List Move)
    (randIdx : Nat) (h : legalMoves ≠ []) :
    ∃ m eng2, randomFallback eng legalMoves randIdx =
      Except.ok (some m, eng2) ∧ m ∈ legalMoves := by
  unfold randomFallback
  rw [dif_neg h]
  exact ⟨_, _, rfl, List.get_mem _ _ _⟩

theorem get_move_fallback_ne_nil (eng : RetrievalEngine) (legalMoves : List Move)
    (lookupResult : Option Move) (randIdx : Nat) (h : legalMoves ≠ []) :
    ∃ m eng2, get_move eng legalMoves lookupResult randIdx =
      Except.ok (some m, eng2) ∧ m ∈ legalMoves := by
  cases lookupResult with
  | none => exact randomFallback_ne_nil eng legalMoves randIdx h
  | some m =>
      simp only [get_move]
      by_cases hm : m ∈ legalMoves
      · rw [if_pos hm]
        exact ⟨m, _, rfl, hm⟩
      · rw [if_neg hm]
        exact randomFallback_ne_nil eng legalMoves randIdx h

/-- C1, as stated, is false in its terminal-position half: with zero
legal moves `get_move` raises `IndexError` (from `random.choice` on the
empty legal-move list); it does not return the no-move signal `None`. -/
theorem get_move_empty_fails :
    get_move ⟨0, 0⟩ [] none 0 = Except.error PyError.indexError := rfl

/-- C1 (amended): whenever at least one legal move exists `get_move`
returns a move that is legal in the position (for every lookup answer
and every random pick); with zero legal moves it raises `IndexError`
rather than returning a move or the no-move signal. -/
theorem get_move_legality (eng : RetrievalEngine) (legalMoves : List Move)
    (lookupResult : Option Move) (randIdx : Nat) :
    (legalMoves ≠ [] →
      ∃ m eng2, get_move eng legalMoves lookupResult randIdx =
        Except.ok (some m, eng2) ∧ m ∈ legalMoves)
    ∧ (legalMoves = [] →
      get_move eng legalMoves lookupResult randIdx =
        Except.error PyError.indexError) := by
  refine ⟨get_move_fallback_ne_nil eng legalMoves lookupResult randIdx, ?_⟩
  intro h
  subst h
  cases lookupResult with
  | none => rfl
  | some m => rfl

theorem get_move_legality_witness :
    (∃ m eng2, get_move ⟨0, 0⟩ [5] none 0 = Except.ok (some m, eng2) ∧ m ∈ [5])
    ∧ get_move ⟨0, 0⟩ [] (some 5) 0 = Except.error PyError.indexError :=
  ⟨(get_move_legality ⟨0, 0⟩ [5] none 0).1 (by simp),
   (get_move_legality ⟨0, 0⟩ [] (some 5) 0).2 rfl⟩

theorem get_move_counter_step (eng : RetrievalEngine) (lm : List Move)
    (lr : Option Move) (ri : Nat) (m : Move) (eng2 : RetrievalEngine)
    (h : get_move eng lm lr ri = Except.ok (some m, eng2)) :
    (eng2.hits = eng.hits + 1 ∧ eng2.misses = eng.misses) ∨
    (eng2.hits = eng.hits ∧ eng2.misses = eng.misses + 1) := by
  have fb : ∀ hf : randomFallback eng lm ri = Except.ok (some m, eng2),
      eng2.hits = eng.hits ∧ eng2.misses = eng.misses + 1 := by
    intro hf
    unfold randomFallback at hf
    by_cases hl : lm = []
    · rw [dif_pos hl] at hf; exact absurd hf (by simp)
    · rw [dif_neg hl] at hf
      simp only [Except.ok.injEq, Prod.mk.injEq] at hf
      rw [← hf.2]
      exact ⟨rfl, rfl⟩
  cases lr with
  | none => exact Or.inr (fb h)
  | some m0 =>
      simp only [get_move] at h
      by_cases hm : m0 ∈ lm
      · rw [if_pos hm] at h
        simp only [Except.ok.injEq, Prod.mk.injEq] at h
        rw [← h.2]
        exact Or.inl ⟨rfl, rfl⟩
      · rw [if_neg hm] at h
        exact Or.inr (fb h)

theorem runGameCalls_sum (calls : List (List Move × Option Move × Nat)) :
    ∀ eng engF, runGameCalls eng calls = some engF →
      engF.hits + engF.misses = eng.hits + eng.misses + calls.length := by
  induction calls with
  | nil =>
      intro eng engF h
      simp only [runGameCalls, Option.some.injEq] at h
      simp [← h]
  | cons c rest ih =>
      intro eng engF h
      simp only [runGameCalls] at h
      rcases hg : get_move eng c.1 c.2.1 c.2.2 with e | ⟨mo, eng2⟩
      · rw [hg] at h; exact absurd h (by simp)
      · rw [hg] at h
        cases mo with
        | none => exact absurd h (by simp)
        | some m =>
            have step := get_move_counter_step eng c.1 c.2.1 c.2.2 m eng2 hg
            have tail := ih eng2 engF h
            rcases step with ⟨h1, h2⟩ | ⟨h1, h2⟩ <;>
              simp only [tail, h1, h2, List.length_cons] <;> omega

/-- C10: a `get_move` call that returns a move increments exactly one of
the two counters by exactly 1 and leaves the other unchanged; folding a
whole game's retrieval calls from a fresh engine (one fresh
`RetrievalEngine` per game, `_run_single_game`) leaves
`hits + misses` equal to the number of moves the retrieval side played. -/
theorem retrieval_counters :
    (∀ (eng : RetrievalEngine) (lm : List Move) (lr : Option Move)
      (ri : Nat) (m : Move) (eng2 : RetrievalEngine),
      get_move eng lm lr ri = Except.ok (some m, eng2) →
        (eng2.hits = eng.hits + 1 ∧ eng2.misses = eng.misses) ∨
        (eng2.hits = eng.hits ∧ eng2.misses = eng.misses + 1))
    ∧ ∀ (calls : List (List Move × Option Move × Nat)) (engF : RetrievalEngine),
        runGameCalls ⟨0, 0⟩ calls = some engF →
          engF.hits + engF.misses = calls.length := by
  refine ⟨get_move_counter_step, ?_⟩
  intro calls engF h
  have := runGameCalls_sum calls ⟨0, 0⟩ engF h
  simpa using this

theorem retrieval_counters_witness :
    (((RetrievalEngine.mk 1 0).hits = (RetrievalEngine.mk 0 0).hits + 1 ∧
      (RetrievalEngine.mk 1 0).misses = (RetrievalEngine.mk 0 0).misses) ∨
     ((RetrievalEngine.mk 1 0).hits = (RetrievalEngine.mk 0 0).hits ∧
      (RetrievalEngine.mk 1 0).misses = (RetrievalEngine.mk 0 0).misses + 1))
    ∧ (RetrievalEngine.mk 1 0).hits + (RetrievalEngine.mk 1 0).misses =
        ([([7], some 7, 0)] : List (List Move × Option Move × Nat)).length :=
  ⟨retrieval_counters.1 ⟨0, 0⟩ [7] (some 7) 0 7 ⟨1, 0⟩ rfl,
   retrieval_counters.2 [([7], some 7, 0)] ⟨1, 0⟩ rfl⟩

theorem collectGames_foldl_get {α : Type} (order : List Nat) (f : Nat → α) :
    ∀ (arr : List (Option α)) (i : Nat), i < arr.length →
      (order.foldl (fun a j => a.set j (some (f j))) arr)[i]? =
        if i ∈ order then some (some (f i)) else arr[i]? := by
  induction order with
  | nil => intro arr i _; simp
  | cons j rest ih =>
      intro arr i hi
      rw [List.foldl_cons]
      rw [ih (arr.set j (some (f j))) i (by simpa using hi)]
      by_cases hr : i ∈ rest
      · simp [hr]
      · by_cases hij : i = j
        · subst hij
          simp [hr, List.getElem?_set_self, hi]
        · have : ¬ i ∈ j :: rest := by
            simp [hij, hr]
          simp [hr, this, List.getElem?_set_ne (fun hc => hij hc.symm)]

/-- C2: however the game tasks complete, the materialized `games` array
holds the result of the game submitted at index `i` at position `i`. -/
theorem report_games_index_ordered {α : Type} (n : Nat) (resultOf : Nat → α)
    (order : List Nat) (hp : order.Perm (List.range n))
    (i : Nat) (hi : i < n) :
    (collectGames n resultOf order)[i]? = some (some (resultOf i)) := by
  unfold collectGames
  rw [collectGames_foldl_get order resultOf (List.replicate n none) i
    (by simpa using hi)]
  have : i ∈ order := hp.mem_iff.mpr (List.mem_range.mpr hi)
  simp [this]

theorem report_games_index_ordered_witness :
    (collectGames 3 (fun i => 10 * i) [2, 0, 1])[0]? = some (some 0) := by
  have := report_games_index_ordered 3 (fun i => 10 * i) [2, 0, 1]
    (by decide) 0 (by decide)
  simpa using this

theorem ratFloor_eq_intFloor (q : ℚ) : q.floor = ⌊q⌋ := rfl

theorem pyRoundInt_intCast (z : ℤ) : pyRoundInt (z : ℚ) = z := by
  have hf : ((z : ℚ)).floor = z := by
    rw [ratFloor_eq_intFloor]
    exact Int.floor_intCast z
  unfold pyRoundInt
  rw [hf]
  norm_num

theorem pyRound1_intCast (z : ℤ) : pyRound1 (z : ℚ) = z := by
  unfold pyRound1
  have h : ((z : ℚ)) * 10 = ((z * 10 : ℤ) : ℚ) := by push_cast; ring
  rw [h, pyRoundInt_intCast]
  push_cast
  ring

theorem pyRound1_zero : pyRound1 0 = 0 := by
  simpa using pyRound1_intCast 0

/-- C5, as stated, is false: aggregation with zero games raises
`ZeroDivisionError` (`round(sum(...) / n)` with `n = 0`) instead of
yielding 0 for the averaged fields. -/
theorem aggregate_zero_games_fails :
    aggregate 0 [] = Except.error PyError.zeroDivisionError := rfl

/-- C5 (amended): only the hit-rate ratio is guarded against a zero
denominator — with at least one game the aggregation succeeds and
`hit_rate_pct` is 0 whenever the hit-plus-miss total is 0; with zero
games the averaged fields divide by zero and the aggregation fails. -/
theorem aggregate_guarded (n : Nat) (gs : List GameRes) (h : 0 < n) :
    ∃ s, aggregate n gs = Except.ok s ∧
      ((gs.map GameRes.hits).sum + (gs.map GameRes.misses).sum = 0 →
        s.hit_rate_pct = 0) := by
  unfold aggregate
  rw [if_neg (Nat.pos_iff_ne_zero.mp h)]
  refine ⟨_, rfl, ?_⟩
  intro h0
  simp only [h0, if_pos]
  simpa using pyRound1_zero

theorem aggregate_guarded_witness :
    ∃ s, aggregate 1 [GameRes.mk Outcome.draw 10 5 5 0 0] = Except.ok s ∧
      (([GameRes.mk Outcome.draw 10 5 5 0 0].map GameRes.hits).sum +
        ([GameRes.mk Outcome.draw 10 5 5 0 0].map GameRes.misses).sum = 0 →
        s.hit_rate_pct = 0) :=
  aggregate_guarded 1 [GameRes.mk Outcome.draw 10 5 5 0 0] (by decide)

/-- C7: the reported `hit_rate_pct` equals the spec's formula —
`round(total_hits / (total_hits + total_misses) * 100, 1)`, and 0 when
the total is 0. -/
theorem hit_rate_pct_formula (n : Nat) (gs : List GameRes) (s : Summary)
    (h : aggregate n gs = Except.ok s) :
    s.hit_rate_pct =
      specHitRatePct ((gs.map GameRes.hits).sum) ((gs.map GameRes.misses).sum) := by
  unfold aggregate at h
  by_cases hn : n = 0
  · rw [if_pos hn] at h; exact absurd h (by simp)
  · rw [if_neg hn] at h
    simp only [Except.ok.injEq] at h
    rw [← h]
    unfold specHitRatePct
    by_cases h0 : (gs.map GameRes.hits).sum + (gs.map GameRes.misses).sum = 0
    · simp only [h0, if_pos]
      simpa using pyRound1_zero
    · rw [if_neg h0, if_neg h0]

theorem aggregate_one_zeroGame :
    aggregate 1 [GameRes.mk Outcome.draw 0 0 0 0 0] =
      Except.ok (Summary.mk 0 0 1 0 0 0 0 0 0) := by
  have hz : pyRoundInt ((0 : ℚ)) = 0 := by simpa using pyRoundInt_intCast 0
  unfold aggregate
  rw [if_neg one_ne_zero]
  norm_num [pyRound1_zero, hz]
  decide

theorem hit_rate_pct_formula_witness :
    (Summary.mk 0 0 1 0 0 0 0 0 0).hit_rate_pct =
      specHitRatePct (([GameRes.mk Outcome.draw 0 0 0 0 0].map GameRes.hits).sum)
        (([GameRes.mk Outcome.draw 0 0 0 0 0].map GameRes.misses).sum) :=
  hit_rate_pct_formula 1 [GameRes.mk Outcome.draw 0 0 0 0 0]
    (Summary.mk 0 0 1 0 0 0 0 0 0) aggregate_one_zeroGame

/-- C6, as stated, is false: when the task of game 0 raises and game 1
completes afterwards, the run's event log holds only the terminal error
entry — game 1's completion event is never recorded and no aggregation
happens. -/
theorem run_error_counterexample :
    runEvents failingOutcome [0, 1] = [RunEvent.doneError (PyError.other 99)] ∧
    RunEvent.completed 1 1 ∉ runEvents failingOutcome [0, 1] := by
  constructor
  · rfl
  · decide

theorem processFutures_stops {α : Type} (outcome : Nat → Except PyError α)
    (okVal : Nat → α) (j : Nat) (post : List Nat) (e : PyError)
    (hj : outcome j = Except.error e) :
    ∀ (pre : List Nat), (∀ i ∈ pre, outcome i = Except.ok (okVal i)) →
      ∀ evs, processFutures outcome (pre ++ j :: post) evs =
        evs ++ pre.map (fun i => RunEvent.completed i (okVal i)) ++
          [RunEvent.doneError e] := by
  intro pre
  induction pre with
  | nil =>
      intro _ evs
      simp only [List.nil_append, processFutures, hj, List.map_nil]
      simp
  | cons a rest ih =>
      intro hpre evs
      have ha : outcome a = Except.ok (okVal a) :=
        hpre a (List.mem_cons_self a rest)
      simp only [List.cons_append, processFutures, ha, List.append_eq]
      rw [ih (fun i hi => hpre i (List.mem_cons_of_mem a hi))
        (evs ++ [RunEvent.completed a (okVal a)])]
      simp [List.append_assoc]

/-- C6 (amended): an exception in one game task is caught at the run
level and recorded as a terminal error entry, but it stops result
collection: the event log holds exactly the completion events of the
games that finished before the failing one (in completion order)
followed by the error entry — later completions are not recorded and
no aggregation of the other games' results takes place. -/
theorem run_error_stops_collection {α : Type} (outcome : Nat → Except PyError α)
    (okVal : Nat → α) (pre : List Nat) (j : Nat) (post : List Nat) (e : PyError)
    (hpre : ∀ i ∈ pre, outcome i = Except.ok (okVal i))
    (hj : outcome j = Except.error e) :
    runEvents outcome (pre ++ j :: post) =
      pre.map (fun i => RunEvent.completed i (okVal i)) ++
        [RunEvent.doneError e] := by
  unfold runEvents
  rw [processFutures_stops outcome okVal j post e hj pre hpre []]
  simp

theorem run_error_stops_collection_witness :
    runEvents failingOutcome [1, 0] =
      [RunEvent.completed 1 1, RunEvent.doneError (PyError.other 99)] :=
  run_error_stops_collection failingOutcome (fun i => i) [1] 0 [] (PyError.other 99)
    (by decide) rfl

theorem applyWrites_not_written (ws : List (Nat × ℚ)) :
    ∀ (v : Nat → ℚ) (j : Nat), (∀ p ∈ ws, p.1 ≠ j) → applyWrites v ws j = v j := by
  induction ws with
  | nil => intro v j _; rfl
  | cons p rest ih =>
      intro v j h
      have hp : p.1 ≠ j := h p (List.mem_cons_self p rest)
      show applyWrites (upd v p.1 p.2) rest j = v j
      rw [ih (upd v p.1 p.2) j (fun q hq => h q (List.mem_cons_of_mem p hq))]
      simp only [upd]
      exact if_neg (fun hc => hp hc.symm)

theorem applyWrites_append (v : Nat → ℚ) (ws1 ws2 : List (Nat × ℚ)) :
    applyWrites v (ws1 ++ ws2) = applyWrites (applyWrites v ws1) ws2 := by
  unfold applyWrites
  exact List.foldl_append _ _ _ _

theorem pieceOffset_le (p : Piece) : pieceOffset p ≤ 704 := by
  rcases p with ⟨pt, c⟩
  cases c <;> cases pt <;> simp [pieceOffset]

theorem bitboardWrites_bound (b : Board) :
    ∀ p ∈ bitboardWrites b, p.1 ≤ 767 := by
  intro p hp
  unfold bitboardWrites at hp
  rw [List.mem_filterMap] at hp
  obtain ⟨sq, hsq, hf⟩ := hp
  rw [List.mem_range] at hsq
  rcases hq : pieceAtN b sq with _ | q
  · rw [hq] at hf; exact absurd hf (by simp)
  · rw [hq] at hf
    simp only [Option.some.injEq] at hf
    rw [← hf]
    have := pieceOffset_le q
    simp only []
    omega

theorem materialWrites_bound (b : Board) :
    ∀ p ∈ materialWrites b, 768 ≤ p.1 ∧ p.1 ≤ 773 := by
  intro p hp
  simp only [materialWrites, List.mem_cons, List.not_mem_nil, or_false] at hp
  rcases hp with h|h|h|h|h|h <;> subst h <;> exact ⟨by norm_num, by norm_num⟩

theorem pawnFileWrites_bound (b : Board) :
    ∀ p ∈ pawnFileWrites b, 774 ≤ p.1 ∧ p.1 ≤ 789 := by
  intro p hp
  unfold pawnFileWrites at hp
  rw [List.mem_append] at hp
  rcases hp with h | h <;>
  · rw [List.mem_map] at h
    obtain ⟨sq, _, hf⟩ := h
    rw [← hf]
    have : sq % 8 < 8 := Nat.mod_lt _ (by norm_num)
    constructor <;> simp <;> omega

theorem kingPosWrites_bound (b : Board) :
    ∀ p ∈ kingPosWrites b, 790 ≤ p.1 ∧ p.1 ≤ 793 := by
  intro p hp
  unfold kingPosWrites at hp
  rw [List.mem_append] at hp
  rcases hp with h | h
  · rcases hk : king b true with _ | k <;> rw [hk] at h
    · simp at h
    · simp only [List.mem_cons, List.not_mem_nil, or_false] at h
      rcases h with h | h <;> subst h <;> exact ⟨by norm_num, by norm_num⟩
  · rcases hk : king b false with _ | k <;> rw [hk] at h
    · simp at h
    · simp only [List.mem_cons, List.not_mem_nil, or_false] at h
      rcases h with h | h <;> subst h <;> exact ⟨by norm_num, by norm_num⟩

theorem kingPosWrites_no_white (b : Board) (hw : king b true = none) :
    ∀ p ∈ kingPosWrites b, 792 ≤ p.1 ∧ p.1 ≤ 793 := by
  intro p hp
  unfold kingPosWrites at hp
  rw [hw, List.nil_append] at hp
  rcases hk : king b false with _ | k <;> rw [hk] at hp
  · simp at hp
  · simp only [List.mem_cons, List.not_mem_nil, or_false] at hp
    rcases hp with h | h <;> subst h <;> exact ⟨by norm_num, by norm_num⟩

theorem kingPosWrites_no_black (b : Board) (hb : king b false = none) :
    ∀ p ∈ kingPosWrites b, 790 ≤ p.1 ∧ p.1 ≤ 791 := by
  intro p hp
  unfold kingPosWrites at hp
  rw [hb, List.append_nil] at hp
  rcases hk : king b true with _ | k <;> rw [hk] at hp
  · simp at hp
  · simp only [List.mem_cons, List.not_mem_nil, or_false] at hp
    rcases hp with h | h <;> subst h <;> exact ⟨by norm_num, by norm_num⟩

theorem centerWrites_bound (b : Board) :
    ∀ p ∈ centerWrites b, 794 ≤ p.1 ∧ p.1 ≤ 801 := by
  intro p hp
  simp only [centerWrites, List.mem_cons, List.not_mem_nil, or_false] at hp
  rcases hp with h|h|h|h|h|h|h|h <;> subst h <;> exact ⟨by norm_num, by norm_num⟩

theorem scalarWrites_bound (b : Board) :
    ∀ p ∈ scalarWrites b, 802 ≤ p.1 ∧ p.1 ≤ 808 := by
  intro p hp
  simp only [scalarWrites, List.mem_cons, List.not_mem_nil, or_false] at hp
  rcases hp with h|h|h|h|h|h|h <;> subst h <;> exact ⟨by norm_num, by norm_num⟩

theorem openFileWrites_bound (b : Board) :
    ∀ p ∈ openFileWrites b, 809 ≤ p.1 ∧ p.1 ≤ 816 := by
  intro p hp
  unfold openFileWrites at hp
  rw [List.mem_map] at hp
  obtain ⟨f, hf, he⟩ := hp
  rw [List.mem_range] at hf
  rw [← he]
  constructor <;> simp <;> omega

theorem passedWrites_bound (b : Board) :
    ∀ p ∈ passedWrites b, 817 ≤ p.1 ∧ p.1 ≤ 818 := by
  intro p hp
  simp only [passedWrites, List.mem_cons, List.not_mem_nil, or_false] at hp
  rcases hp with h|h <;> subst h <;> exact ⟨by norm_num, by norm_num⟩

theorem bishopPairWrites_bound (b : Board) :
    ∀ p ∈ bishopPairWrites b, 819 ≤ p.1 ∧ p.1 ≤ 820 := by
  intro p hp
  simp only [bishopPairWrites, List.mem_cons, List.not_mem_nil, or_false] at hp
  rcases hp with h|h <;> subst h <;> exact ⟨by norm_num, by norm_num⟩

theorem shieldWrites_bound (b : Board) :
    ∀ p ∈ shieldWrites b, 821 ≤ p.1 ∧ p.1 ≤ 822 := by
  intro p hp
  unfold shieldWrites at hp
  rw [List.mem_append] at hp
  rcases hp with h | h
  · rcases hk : king b true with _ | k <;> rw [hk] at h
    · simp at h
    · simp only [List.mem_cons, List.not_mem_nil, or_false] at h
      subst h; exact ⟨by norm_num, by norm_num⟩
  · rcases hk : king b false with _ | k <;> rw [hk] at h
    · simp at h
    · simp only [List.mem_cons, List.not_mem_nil, or_false] at h
      subst h; exact ⟨by norm_num, by norm_num⟩

theorem shieldWrites_no_white (b : Board) (hw : king b true = none) :
    ∀ p ∈ shieldWrites b, p.1 = 822 := by
  intro p hp
  unfold shieldWrites at hp
  rw [hw, List.nil_append] at hp
  rcases hk : king b false with _ | k <;> rw [hk] at hp
  · simp at hp
  · simp only [List.mem_cons, List.not_mem_nil, or_false] at hp
    subst hp; rfl

theorem shieldWrites_no_black (b : Board) (hb : king b false = none) :
    ∀ p ∈ shieldWrites b, p.1 = 821 := by
  intro p hp
  unfold shieldWrites at hp
  rw [hb, List.append_nil] at hp
  rcases hk : king b true with _ | k <;> rw [hk] at hp
  · simp at hp
  · simp only [List.mem_cons, List.not_mem_nil, or_false] at hp
    subst hp; rfl

theorem whiteKingless_vec (b : Board) (h : king b true = none) (j : Nat)
    (hj : j = 790 ∨ j = 791 ∨ j = 821) : encVec b j = 0 := by
  refine applyWrites_not_written _ _ _ ?_
  unfold allWrites
  simp only [List.forall_mem_append]
  refine ⟨⟨⟨⟨⟨⟨⟨⟨⟨fun p hp => ?_, fun p hp => ?_⟩, fun p hp => ?_⟩,
    fun p hp => ?_⟩, fun p hp => ?_⟩, fun p hp => ?_⟩, fun p hp => ?_⟩,
    fun p hp => ?_⟩, fun p hp => ?_⟩, fun p hp => ?_⟩
  · have := bitboardWrites_bound b p hp; omega
  · have := materialWrites_bound b p hp; omega
  · have := pawnFileWrites_bound b p hp; omega
  · have := kingPosWrites_no_white b h p hp; omega
  · have := centerWrites_bound b p hp; omega
  · have := scalarWrites_bound b p hp; omega
  · have := openFileWrites_bound b p hp; omega
  · have := passedWrites_bound b p hp; omega
  · have := bishopPairWrites_bound b p hp; omega
  · have := shieldWrites_no_white b h p hp; omega

theorem blackKingless_vec (b : Board) (h : king b false = none) (j : Nat)
    (hj : j = 792 ∨ j = 793 ∨ j = 822) : encVec b j = 0 := by
  refine applyWrites_not_written _ _ _ ?_
  unfold allWrites
  simp only [List.forall_mem_append]
  refine ⟨⟨⟨⟨⟨⟨⟨⟨⟨fun p hp => ?_, fun p hp => ?_⟩, fun p hp => ?_⟩,
    fun p hp => ?_⟩, fun p hp => ?_⟩, fun p hp => ?_⟩, fun p hp => ?_⟩,
    fun p hp => ?_⟩, fun p hp => ?_⟩, fun p hp => ?_⟩
  · have := bitboardWrites_bound b p hp; omega
  · have := materialWrites_bound b p hp; omega
  · have := pawnFileWrites_bound b p hp; omega
  · have := kingPosWrites_no_black b h p hp; omega
  · have := centerWrites_bound b p hp; omega
  · have := scalarWrites_bound b p hp; omega
  · have := openFileWrites_bound b p hp; omega
  · have := passedWrites_bound b p hp; omega
  · have := bishopPairWrites_bound b p hp; omega
  · have := shieldWrites_no_black b h p hp; omega

theorem encode_board_length (b : Board) : (encode_board b).length = 832 := by
  simp [encode_board, VECTOR_DIM]

theorem encode_board_get (b : Board) (i : Nat) (h : i < 832) :
    (encode_board b)[i]? = some (encVec b i) := by
  simp [encode_board, VECTOR_DIM, List.getElem?_map, List.getElem?_range, h]

/-- C8: the encoder is a pure function of the board — two calls on the
same position yield the same 832-element vector. -/
theorem encode_board_deterministic (b : Board) :
    encode_board b = encode_board b ∧ (encode_board b).length = 832 :=
  ⟨rfl, encode_board_length b⟩

/-- C9: with a color's king absent the encoder still produces a full
832-element vector, and that color's king-file, king-rank and
king-shield features are 0 (indices 790/791/821 for white,
792/793/822 for black). -/
theorem encode_missing_king (b : Board) (c : Bool) (h : king b c = none) :
    (encode_board b).length = 832 ∧
    (encode_board b)[if c then 790 else 792]? = some 0 ∧
    (encode_board b)[if c then 791 else 793]? = some 0 ∧
    (encode_board b)[if c then 821 else 822]? = some 0 := by
  cases c with
  | true =>
      refine ⟨encode_board_length b, ?_, ?_, ?_⟩
      · show (encode_board b)[790]? = some 0
        rw [encode_board_get b 790 (by norm_num),
          whiteKingless_vec b h 790 (Or.inl rfl)]
      · show (encode_board b)[791]? = some 0
        rw [encode_board_get b 791 (by norm_num),
          whiteKingless_vec b h 791 (Or.inr (Or.inl rfl))]
      · show (encode_board b)[821]? = some 0
        rw [encode_board_get b 821 (by norm_num),
          whiteKingless_vec b h 821 (Or.inr (Or.inr rfl))]
  | false =>
      refine ⟨encode_board_length b, ?_, ?_, ?_⟩
      · show (encode_board b)[792]? = some 0
        rw [encode_board_get b 792 (by norm_num),
          blackKingless_vec b h 792 (Or.inl rfl)]
      · show (encode_board b)[793]? = some 0
        rw [encode_board_get b 793 (by norm_num),
          blackKingless_vec b h 793 (Or.inr (Or.inl rfl))]
      · show (encode_board b)[822]? = some 0
        rw [encode_board_get b 822 (by norm_num),
          blackKingless_vec b h 822 (Or.inr (Or.inr rfl))]

theorem encode_missing_king_witness :
    (encode_board bdEmpty).length = 832 ∧
    (encode_board bdEmpty)[790]? = some 0 ∧
    (encode_board bdEmpty)[791]? = some 0 ∧
    (encode_board bdEmpty)[821]? = some 0 :=
  encode_missing_king bdEmpty true (by decide)

theorem foldl_if_count {α : Type} (g : α → Bool) (l : List α) :
    ∀ a : Nat, l.foldl (fun acc x => if g x then acc + 1 else acc) a =
      a + List.countP g l := by
  induction l with
  | nil => intro a; simp [List.countP_nil]
  | cons x xs ih =>
      intro a
      simp only [List.foldl_cons, List.countP_cons]
      cases hg : g x
      · simp [hg, ih]
      · simp [hg, ih]
        omega

theorem foldl_if_add {α : Type} (P : α → Prop) [DecidablePred P]
    (n : α → Nat) (l : List α) :
    ∀ a : Nat, l.foldl (fun acc x => if P x then acc + n x else acc) a =
      a + (l.map (fun x => if P x then n x else 0)).sum := by
  induction l with
  | nil => intro a; simp
  | cons x xs ih =>
      intro a
      simp only [List.foldl_cons, List.map_cons, List.sum_cons]
      by_cases hP : P x
      · simp [hP, ih]
        omega
      · simp [hP, ih]

set_option maxHeartbeats 2000000 in
theorem shieldCount_eq_spec (b : Board) (c : Bool) (k : Nat) :
    shieldCount b c k = specShieldFixed b c k := by
  have h0 : 0 ≤ (k : ℤ) % 8 := Int.emod_nonneg _ (by norm_num)
  have h8 : (k : ℤ) % 8 < 8 := Int.emod_lt_of_pos _ (by norm_num)
  unfold shieldCount specShieldFixed
  rw [← List.countP_eq_length_filter]
  simp only [foldl_if_count, foldl_if_add]
  rw [show List.range 64 =
    [0,1,2,3,4,5,6,7,8,9,10,11,12,13,14,15,16,17,18,19,20,21,22,23,
     24,25,26,27,28,29,30,31,32,33,34,35,36,37,38,39,40,41,42,43,44,45,46,47,
     48,49,50,51,52,53,54,55,56,57,58,59,60,61,62,63] from rfl]
  generalize hm : ((k : ℤ) % 8) = m at h0 h8
  interval_cases m <;> cases c <;>
    · simp [pieceAtI, Int.toNat_ofNat, List.countP_cons, List.countP_nil]
      split_ifs <;> omega

theorem shieldIdx_white_value (b : Board) (k : Nat) (h : king b true = some k) :
    encVec b 821 = (shieldCount b true k : ℚ) / 6 := by
  unfold encVec allWrites shieldWrites
  simp only [h]
  rw [applyWrites_append, applyWrites_append]
  rw [applyWrites_not_written _ _ 821 (fun p hp => by
    rcases hk : king b false with _ | k2 <;> rw [hk] at hp
    · simp at hp
    · simp only [List.mem_cons, List.not_mem_nil, or_false] at hp
      subst hp
      norm_num)]
  simp [applyWrites, upd]

theorem shieldIdx_black_value (b : Board) (k : Nat) (h : king b false = some k) :
    encVec b 822 = (shieldCount b false k : ℚ) / 6 := by
  unfold encVec allWrites shieldWrites
  simp only [h]
  rw [applyWrites_append]
  rw [show ∀ w : Nat → ℚ,
      applyWrites w ((match king b true with
        | none => []
        | some k2 => [(768 + 53, (shieldCount b true k2 : ℚ) / 6)]) ++
        [(768 + 54, (shieldCount b false k : ℚ) / 6)]) 822 =
      (shieldCount b false k : ℚ) / 6 from fun w => by
    rw [applyWrites_append]
    simp [applyWrites, upd]]

theorem passedIdx_black_value (b : Board) :
    encVec b 818 = (passedCount b false : ℚ) / 8 := by
  unfold encVec allWrites
  rw [applyWrites_append]
  rw [applyWrites_not_written (shieldWrites b) _ 818 (fun p hp => by
    have := shieldWrites_bound b p hp; omega)]
  rw [applyWrites_append]
  rw [applyWrites_not_written (bishopPairWrites b) _ 818 (fun p hp => by
    have := bishopPairWrites_bound b p hp; omega)]
  rw [applyWrites_append]
  unfold passedWrites
  simp [applyWrites, upd]

/-- C3: evaluation of the encoder at the failing input — black pawn on
a2, white pawn on a7 (FEN 8/P7/8/8/8/8/p7/8).  The white a7 pawn is
behind the black a2 pawn, so the a2 pawn is passed (the spec criterion
counts 1), but the code's black scan `range(rank - 7, rank)` hits
negative ranks which wrap around to the top of the board (Python
negative list indexing in `BB_SQUARES`), finds the a7 pawn, and reports
0; the black passed-pawn feature (index 818) is 0 instead of 1/8. -/
theorem passed_pawn_black_scan_eval :
    passedCount bdPassed false = 0 ∧ specPassedCount bdPassed false = 1 ∧
    (encode_board bdPassed)[818]? = some 0 := by
  refine ⟨by decide, by decide, ?_⟩
  rw [encode_board_get bdPassed 818 (by norm_num), passedIdx_black_value bdPassed,
    show passedCount bdPassed false = 0 from by decide]
  norm_num

/-- C4, as stated, is false: with the white king on e4 and a white pawn
on e5 — on the rank immediately in front of the king — the code's
white king-shield feature (index 821) is 0, because the code counts
pawns on the fixed ranks 2-3 only, while the claim's king-relative
criterion counts 1 (so the claimed feature value would be 1/6). -/
theorem king_shield_counterexample :
    (encode_board bdShield)[821]? = some 0 ∧
    specShieldRelative bdShield true = 1 := by
  refine ⟨?_, by decide⟩
  rw [encode_board_get bdShield 821 (by norm_num),
    shieldIdx_white_value bdShield 28 (by decide),
    show shieldCount bdShield true 28 = 0 from by decide]
  norm_num

/-- C4 (amended): for each color with a king on the board, the encoder's
king-shield feature (index 821 for white, 822 for black) equals the
number of friendly pawns on the fixed shield ranks — the second and
third ranks for white, the sixth and seventh for black (0-indexed 1-2
and 5-6) — on the king's file or one file to either side, divided
by 6. -/
theorem king_shield_fixed_ranks (b : Board) (c : Bool) (k : Nat)
    (h : king b c = some k) :
    (encode_board b)[if c then 821 else 822]? =
      some ((specShieldFixed b c k : ℚ) / 6) := by
  cases c with
  | true =>
      show (encode_board b)[821]? = _
      rw [encode_board_get b 821 (by norm_num), shieldIdx_white_value b k h,
        shieldCount_eq_spec b true k]
  | false =>
      show (encode_board b)[822]? = _
      rw [encode_board_get b 822 (by norm_num), shieldIdx_black_value b k h,
        shieldCount_eq_spec b false k]

theorem king_shield_fixed_ranks_witness :
    (encode_board bdShieldE1)[821]? =
      some ((specShieldFixed bdShieldE1 true 4 : ℚ) / 6) :=
  king_shield_fixed_ranks bdShieldE1 true 4 (by decide)
